import Mathlib

/-!
Verification of the WebGL sphere visualization (`webgl.js`).

The JavaScript source is embedded shallowly: JS numbers are idealized as real
numbers (`ℝ`), the mutable global arrays `vertices`/`normals` become an
explicit `Geo` state threaded through `subdivideTriangle`/`generateSphere`,
and the per-frame `render` function becomes a pure function from a scene
state to a new scene state plus a trace of GraphicsBackend (WebGL) calls.
The gl-matrix 2.8.1 library functions called by the source (`mat4.lookAt`,
`mat4.invert`, `mat4.transpose`, `mat4.multiply`, `mat4.rotateY`,
`mat4.create`, `mat4.copy`) are modelled from that pinned library version.
-/

namespace WebGL

/-- A 3-component vector of (idealized) JS numbers. -/
structure Vec3 where
  (x y z : ℝ)

/-- Dot product of two `Vec3` (used in specifications and in the shader). -/
noncomputable def dot (a b : Vec3) : ℝ := a.x * b.x + a.y * b.y + a.z * b.z

/-- Squared Euclidean magnitude of a `Vec3`. -/
noncomputable def nrm2 (v : Vec3) : ℝ := v.x * v.x + v.y * v.y + v.z * v.z

/-- `function normalize(v)` from webgl.js: divide each component by
`Math.sqrt(v[0]*v[0] + v[1]*v[1] + v[2]*v[2])`.  (In JS a zero length gives
NaN; over `ℝ` division by zero gives `0`.  All uses proved about below have
strictly positive length.) -/
noncomputable def normalize (v : Vec3) : Vec3 :=
  let length := Real.sqrt (v.x * v.x + v.y * v.y + v.z * v.z)
  ⟨v.x / length, v.y / length, v.z / length⟩

/-- Componentwise midpoint `[(u[0]+v[0])/2, (u[1]+v[1])/2, (u[2]+v[2])/2]` as
inlined in `subdivideTriangle`. -/
noncomputable def midpt (u v : Vec3) : Vec3 :=
  ⟨(u.x + v.x) / 2, (u.y + v.y) / 2, (u.z + v.z) / 2⟩

/-- The (pre-normalization) cross product `(v2 - v1) × (v3 - v1)` exactly as
written out componentwise in `subdivideTriangle` (webgl.js lines 186-190). -/
noncomputable def crossSub (v1 v2 v3 : Vec3) : Vec3 :=
  ⟨(v2.y - v1.y) * (v3.z - v1.z) - (v2.z - v1.z) * (v3.y - v1.y),
   (v2.z - v1.z) * (v3.x - v1.x) - (v2.x - v1.x) * (v3.z - v1.z),
   (v2.x - v1.x) * (v3.y - v1.y) - (v2.y - v1.y) * (v3.x - v1.x)⟩

/-- The face normal stored for a leaf triangle: `normalize` of `crossSub`. -/
noncomputable def faceNormal (v1 v2 v3 : Vec3) : Vec3 :=
  normalize (crossSub v1 v2 v3)

/-- Centroid of a triangle (used to state the outward-normal property). -/
noncomputable def centroid (v1 v2 v3 : Vec3) : Vec3 :=
  ⟨(v1.x + v2.x + v3.x) / 3, (v1.y + v2.y + v3.y) / 3, (v1.z + v2.z + v3.z) / 3⟩

/-- 3×3 determinant of the rows `a`, `b`, `c` (specification device for the
winding/orientation invariant). -/
noncomputable def det (a b c : Vec3) : ℝ :=
  a.x * (b.y * c.z - b.z * c.y) - a.y * (b.x * c.z - b.z * c.x) +
    a.z * (b.x * c.y - b.y * c.x)

/-- The two global arrays `vertices` and `normals` of webgl.js. -/
structure Geo where
  (vertices normals : List ℝ)

/-- `const X = 0.525731112119133606` from `generateIcosahedron`. -/
noncomputable def X : ℝ := 0.525731112119133606

/-- `const Z = 0.850650808352039932` from `generateIcosahedron`. -/
noncomputable def Z : ℝ := 0.850650808352039932

/-- `const N = 0.0` from `generateIcosahedron`. -/
noncomputable def N : ℝ := 0.0

/-- Result record of `generateIcosahedron`: flat vertex coordinates plus
index triples. -/
structure Icosa where
  (vertices : List ℝ)
  (indices : List ℕ)

/-- `function generateIcosahedron()` from webgl.js: the fixed 12-vertex /
20-triangle icosahedron data. -/
noncomputable def generateIcosahedron : Icosa :=
  { vertices :=
      [-X, N, Z,  X, N, Z,  -X, N, -Z,  X, N, -Z,
       N, Z, X,  N, Z, -X,  N, -Z, X,  N, -Z, -X,
       Z, X, N,  -Z, X, N,  Z, -X, N,  -Z, -X, N]
    indices :=
      [1,4,0,  4,9,0,  4,5,9,  8,5,4,  1,8,4,
       1,10,8, 10,3,8, 8,3,5,  3,2,5,  3,7,2,
       3,10,7, 10,6,7, 6,11,7, 6,0,11, 6,1,0,
       10,1,6, 11,0,9, 2,11,9, 5,2,9,  11,2,7] }

/-- Fetch vertex `idx` from the flat coordinate array, as in the body of
`generateSphere` (`icosa.vertices[icosa.indices[i] * 3]` etc.). -/
noncomputable def vertexAt (verts : List ℝ) (idx : ℕ) : Vec3 :=
  ⟨verts.getD (idx * 3) 0, verts.getD (idx * 3 + 1) 0, verts.getD (idx * 3 + 2) 0⟩

/-- `function subdivideTriangle(v1, v2, v3, depth)` from webgl.js, with the
mutation of the global `vertices`/`normals` arrays made explicit: the input
state `g` is the value of the globals before the call, the result is their
value after the call.
At depth 0 the triangle coordinates are pushed and the face normal is pushed
three times (once per vertex); otherwise the three re-normalized edge
midpoints are formed and the four sub-triangles are processed in the
source order. -/
noncomputable def subdivideTriangle (v1 v2 v3 : Vec3) (depth : ℕ) (g : Geo) : Geo :=
  match depth with
  | 0 =>
      let normal := faceNormal v1 v2 v3
      { vertices := g.vertices ++
          [v1.x, v1.y, v1.z, v2.x, v2.y, v2.z, v3.x, v3.y, v3.z]
        normals := g.normals ++
          [normal.x, normal.y, normal.z, normal.x, normal.y, normal.z,
           normal.x, normal.y, normal.z] }
  | d + 1 =>
      let v12 := normalize (midpt v1 v2)
      let v23 := normalize (midpt v2 v3)
      let v31 := normalize (midpt v3 v1)
      subdivideTriangle v12 v23 v31 d
        (subdivideTriangle v3 v31 v23 d
          (subdivideTriangle v2 v23 v12 d
            (subdivideTriangle v1 v12 v31 d g)))

/-- The `for (let i = 0; i < icosa.indices.length; i += 3)` loop of
`generateSphere`, walking the index list three entries at a time. -/
noncomputable def generateSphereLoop (verts : List ℝ) (level : ℕ) :
    List ℕ → Geo → Geo
  | i1 :: i2 :: i3 :: rest, g =>
      generateSphereLoop verts level rest
        (subdivideTriangle (vertexAt verts i1) (vertexAt verts i2)
          (vertexAt verts i3) level g)
  | [], g => g
  | [_], g => g
  | [_, _], g => g

/-- `function generateSphere(subdivisionLevel)` from webgl.js: resets the two
global arrays to `[]` (so the incoming state `g` is discarded) and then
subdivides each of the 20 icosahedron triangles at the requested level. -/
noncomputable def generateSphere (subdivisionLevel : ℕ) (_g : Geo) : Geo :=
  let icosa := generateIcosahedron
  generateSphereLoop icosa.vertices subdivisionLevel icosa.indices ⟨[], []⟩

/-- A triangle as an ordered triple of vertices. -/
abbrev Tri := Vec3 × Vec3 × Vec3

/-- Specification companion of `subdivideTriangle`: the sequence of leaf
triangles it emits, in emission order. -/
noncomputable def leafTris (v1 v2 v3 : Vec3) : ℕ → List Tri
  | 0 => [(v1, v2, v3)]
  | d + 1 =>
      let v12 := normalize (midpt v1 v2)
      let v23 := normalize (midpt v2 v3)
      let v31 := normalize (midpt v3 v1)
      leafTris v1 v12 v31 d ++ leafTris v2 v23 v12 d ++
        leafTris v3 v31 v23 d ++ leafTris v12 v23 v31 d

/-- The nine coordinates a leaf triangle contributes to `vertices`. -/
noncomputable def triVerts (t : Tri) : List ℝ :=
  [t.1.x, t.1.y, t.1.z, t.2.1.x, t.2.1.y, t.2.1.z, t.2.2.x, t.2.2.y, t.2.2.z]

/-- The nine coordinates a leaf triangle contributes to `normals`: its face
normal repeated once per vertex. -/
noncomputable def triNorms (t : Tri) : List ℝ :=
  let n := faceNormal t.1 t.2.1 t.2.2
  [n.x, n.y, n.z, n.x, n.y, n.z, n.x, n.y, n.z]

/-- The triangles named by an index list (three indices per triangle). -/
noncomputable def collectTris (verts : List ℝ) : List ℕ → List Tri
  | i1 :: i2 :: i3 :: rest =>
      (vertexAt verts i1, vertexAt verts i2, vertexAt verts i3) ::
        collectTris verts rest
  | [] => []
  | [_] => []
  | [_, _] => []

/-- The 20 seed triangles of the icosahedron as `generateSphere` reads them. -/
noncomputable def seedTriangles : List Tri :=
  collectTris generateIcosahedron.vertices generateIcosahedron.indices

/-- All leaf triangles of one `generateSphere` pass at a given level. -/
noncomputable def sphereLeafTris (level : ℕ) : List Tri :=
  seedTriangles.flatMap (fun t => leafTris t.1 t.2.1 t.2.2 level)

/-- A 4×4 matrix in gl-matrix column-major array layout: field `mI` is array
slot `I`, so column `c` row `r` is field `m(4c+r)`. -/
@[ext] structure Mat4 where
  (m0 m1 m2 m3 m4 m5 m6 m7 m8 m9 m10 m11 m12 m13 m14 m15 : ℝ)

/-- `glMatrix.EPSILON` of gl-matrix 2.8.1. -/
noncomputable def EPSILON : ℝ := 0.000001

/-- `mat4.create()` of gl-matrix 2.8.1: the identity matrix. -/
noncomputable def mat4create : Mat4 :=
  ⟨1, 0, 0, 0, 0, 1, 0, 0, 0, 0, 1, 0, 0, 0, 0, 1⟩

/-- `mat4.lookAt(out, eye, center, up)` of gl-matrix 2.8.1.  If eye and
center agree within EPSILON the identity is returned; otherwise the basis
z = normalize(eye-center), x = normalize(up × z), y = normalize(z × x) is
built, where a zero-length cross product is replaced by the zero vector
(the JS `if (!len)` fallback, not a secondary up vector). -/
noncomputable def mat4lookAt (eye center up : Vec3) : Mat4 :=
  if |eye.x - center.x| < EPSILON ∧ |eye.y - center.y| < EPSILON ∧
      |eye.z - center.z| < EPSILON then
    mat4create
  else
    let z0 := eye.x - center.x
    let z1 := eye.y - center.y
    let z2 := eye.z - center.z
    let lenz := 1 / Real.sqrt (z0 * z0 + z1 * z1 + z2 * z2)
    let z0 := z0 * lenz
    let z1 := z1 * lenz
    let z2 := z2 * lenz
    let x0 := up.y * z2 - up.z * z1
    let x1 := up.z * z0 - up.x * z2
    let x2 := up.x * z1 - up.y * z0
    let lenx := Real.sqrt (x0 * x0 + x1 * x1 + x2 * x2)
    let x0 := if lenx = 0 then 0 else x0 * (1 / lenx)
    let x1 := if lenx = 0 then 0 else x1 * (1 / lenx)
    let x2 := if lenx = 0 then 0 else x2 * (1 / lenx)
    let y0 := z1 * x2 - z2 * x1
    let y1 := z2 * x0 - z0 * x2
    let y2 := z0 * x1 - z1 * x0
    let leny := Real.sqrt (y0 * y0 + y1 * y1 + y2 * y2)
    let y0 := if leny = 0 then 0 else y0 * (1 / leny)
    let y1 := if leny = 0 then 0 else y1 * (1 / leny)
    let y2 := if leny = 0 then 0 else y2 * (1 / leny)
    ⟨x0, y0, z0, 0,
     x1, y1, z1, 0,
     x2, y2, z2, 0,
     -(x0 * eye.x + x1 * eye.y + x2 * eye.z),
     -(y0 * eye.x + y1 * eye.y + y2 * eye.z),
     -(z0 * eye.x + z1 * eye.y + z2 * eye.z), 1⟩

/-- The determinant computed inside `mat4.invert` of gl-matrix 2.8.1. -/
noncomputable def mat4det (a : Mat4) : ℝ :=
  let b00 := a.m0 * a.m5 - a.m1 * a.m4
  let b01 := a.m0 * a.m6 - a.m2 * a.m4
  let b02 := a.m0 * a.m7 - a.m3 * a.m4
  let b03 := a.m1 * a.m6 - a.m2 * a.m5
  let b04 := a.m1 * a.m7 - a.m3 * a.m5
  let b05 := a.m2 * a.m7 - a.m3 * a.m6
  let b06 := a.m8 * a.m13 - a.m9 * a.m12
  let b07 := a.m8 * a.m14 - a.m10 * a.m12
  let b08 := a.m8 * a.m15 - a.m11 * a.m12
  let b09 := a.m9 * a.m14 - a.m10 * a.m13
  let b10 := a.m9 * a.m15 - a.m11 * a.m13
  let b11 := a.m10 * a.m15 - a.m11 * a.m14
  b00 * b11 - b01 * b10 + b02 * b09 + b03 * b08 - b04 * b07 + b05 * b06

/-- `mat4.invert(out, a)` of gl-matrix 2.8.1: `none` models the JS
`if (!det) return null` path, in which `out` is left untouched. -/
noncomputable def mat4invert (a : Mat4) : Option Mat4 :=
  let b00 := a.m0 * a.m5 - a.m1 * a.m4
  let b01 := a.m0 * a.m6 - a.m2 * a.m4
  let b02 := a.m0 * a.m7 - a.m3 * a.m4
  let b03 := a.m1 * a.m6 - a.m2 * a.m5
  let b04 := a.m1 * a.m7 - a.m3 * a.m5
  let b05 := a.m2 * a.m7 - a.m3 * a.m6
  let b06 := a.m8 * a.m13 - a.m9 * a.m12
  let b07 := a.m8 * a.m14 - a.m10 * a.m12
  let b08 := a.m8 * a.m15 - a.m11 * a.m12
  let b09 := a.m9 * a.m14 - a.m10 * a.m13
  let b10 := a.m9 * a.m15 - a.m11 * a.m13
  let b11 := a.m10 * a.m15 - a.m11 * a.m14
  let d := b00 * b11 - b01 * b10 + b02 * b09 + b03 * b08 - b04 * b07 + b05 * b06
  if d = 0 then none
  else some
    ⟨(a.m5 * b11 - a.m6 * b10 + a.m7 * b09) * (1 / d),
     (a.m2 * b10 - a.m1 * b11 - a.m3 * b09) * (1 / d),
     (a.m13 * b05 - a.m14 * b04 + a.m15 * b03) * (1 / d),
     (a.m10 * b04 - a.m9 * b05 - a.m11 * b03) * (1 / d),
     (a.m6 * b08 - a.m4 * b11 - a.m7 * b07) * (1 / d),
     (a.m0 * b11 - a.m2 * b08 + a.m3 * b07) * (1 / d),
     (a.m14 * b02 - a.m12 * b05 - a.m15 * b01) * (1 / d),
     (a.m8 * b05 - a.m10 * b02 + a.m11 * b01) * (1 / d),
     (a.m4 * b10 - a.m5 * b08 + a.m7 * b06) * (1 / d),
     (a.m1 * b08 - a.m0 * b10 - a.m3 * b06) * (1 / d),
     (a.m12 * b04 - a.m13 * b02 + a.m15 * b00) * (1 / d),
     (a.m9 * b02 - a.m8 * b04 - a.m11 * b00) * (1 / d),
     (a.m5 * b07 - a.m4 * b09 - a.m6 * b06) * (1 / d),
     (a.m0 * b09 - a.m1 * b07 + a.m2 * b06) * (1 / d),
     (a.m13 * b01 - a.m12 * b03 - a.m14 * b00) * (1 / d),
     (a.m8 * b03 - a.m9 * b01 + a.m10 * b00) * (1 / d)⟩

/-- `mat4.transpose(out, a)` of gl-matrix 2.8.1. -/
noncomputable def mat4transpose (a : Mat4) : Mat4 :=
  ⟨a.m0, a.m4, a.m8, a.m12,
   a.m1, a.m5, a.m9, a.m13,
   a.m2, a.m6, a.m10, a.m14,
   a.m3, a.m7, a.m11, a.m15⟩

/-- `mat4.multiply(out, a, b)` of gl-matrix 2.8.1 (column-major product
`a · b`). -/
noncomputable def mat4multiply (a b : Mat4) : Mat4 :=
  ⟨b.m0 * a.m0 + b.m1 * a.m4 + b.m2 * a.m8 + b.m3 * a.m12,
   b.m0 * a.m1 + b.m1 * a.m5 + b.m2 * a.m9 + b.m3 * a.m13,
   b.m0 * a.m2 + b.m1 * a.m6 + b.m2 * a.m10 + b.m3 * a.m14,
   b.m0 * a.m3 + b.m1 * a.m7 + b.m2 * a.m11 + b.m3 * a.m15,
   b.m4 * a.m0 + b.m5 * a.m4 + b.m6 * a.m8 + b.m7 * a.m12,
   b.m4 * a.m1 + b.m5 * a.m5 + b.m6 * a.m9 + b.m7 * a.m13,
   b.m4 * a.m2 + b.m5 * a.m6 + b.m6 * a.m10 + b.m7 * a.m14,
   b.m4 * a.m3 + b.m5 * a.m7 + b.m6 * a.m11 + b.m7 * a.m15,
   b.m8 * a.m0 + b.m9 * a.m4 + b.m10 * a.m8 + b.m11 * a.m12,
   b.m8 * a.m1 + b.m9 * a.m5 + b.m10 * a.m9 + b.m11 * a.m13,
   b.m8 * a.m2 + b.m9 * a.m6 + b.m10 * a.m10 + b.m11 * a.m14,
   b.m8 * a.m3 + b.m9 * a.m7 + b.m10 * a.m11 + b.m11 * a.m15,
   b.m12 * a.m0 + b.m13 * a.m4 + b.m14 * a.m8 + b.m15 * a.m12,
   b.m12 * a.m1 + b.m13 * a.m5 + b.m14 * a.m9 + b.m15 * a.m13,
   b.m12 * a.m2 + b.m13 * a.m6 + b.m14 * a.m10 + b.m15 * a.m14,
   b.m12 * a.m3 + b.m13 * a.m7 + b.m14 * a.m11 + b.m15 * a.m15⟩

/-- `mat4.rotateY(out, a, rad)` of gl-matrix 2.8.1: post-multiplies `a` by a
rotation of `rad` radians about the Y axis. -/
noncomputable def mat4rotateY (a : Mat4) (rad : ℝ) : Mat4 :=
  let s := Real.sin rad
  let c := Real.cos rad
  ⟨a.m0 * c - a.m8 * s, a.m1 * c - a.m9 * s, a.m2 * c - a.m10 * s,
   a.m3 * c - a.m11 * s,
   a.m4, a.m5, a.m6, a.m7,
   a.m0 * s + a.m8 * c, a.m1 * s + a.m9 * c, a.m2 * s + a.m10 * c,
   a.m3 * s + a.m11 * c,
   a.m12, a.m13, a.m14, a.m15⟩

/-- The camera eye position from spherical coordinates, as computed inside
`updateCameraPosition` (webgl.js lines 266-270). -/
noncomputable def eyeVec (radius theta phi : ℝ) : Vec3 :=
  ⟨radius * Real.sin phi * Real.cos theta,
   radius * Real.sin phi * Real.sin theta,
   radius * Real.cos phi⟩

/-- `function updateCameraPosition()` from webgl.js: recomputes the global
`modelViewMatrix` with `mat4.lookAt` toward the origin with up (0,1,0), and
the global `normalMatrix` as the transpose of its inverse.  The previous
value of `normalMatrix` is an input because `mat4.invert` leaves its output
untouched when the determinant vanishes. -/
noncomputable def updateCameraPosition (radius theta phi : ℝ)
    (oldNormalMatrix : Mat4) : Mat4 × Mat4 :=
  let mv := mat4lookAt (eyeVec radius theta phi) ⟨0, 0, 0⟩ ⟨0, 1, 0⟩
  (mv, mat4transpose ((mat4invert mv).getD oldNormalMatrix))

/-- `const lightPosition = [2.0, 2.0, 2.0]` from webgl.js. -/
noncomputable def lightPosition : Vec3 := ⟨2.0, 2.0, 2.0⟩

/-- The fragment shader main function (webgl.js lines 60-77).  The declared
uniforms `uLightPosition` and `uLightIntensity` are parameters; the body
hard-codes `lightPos = vec3(2.0, 2.0, 2.0)` and never reads
`uLightPosition`.  Returns the scalar gray level written to all three color
channels. -/
noncomputable def fragmentShaderMain (uLightPosition : Vec3)
    (uLightIntensity : ℝ) (vNormal vPosition : Vec3) : ℝ :=
  let lightPos : Vec3 := ⟨2.0, 2.0, 2.0⟩
  let lightDir := normalize ⟨lightPos.x - vPosition.x, lightPos.y - vPosition.y,
    lightPos.z - vPosition.z⟩
  let ambient : ℝ := 0.2
  let diff := max (dot (normalize vNormal) lightDir) 0
  (ambient + diff * 0.8) * uLightIntensity

/-- The calls the render step makes on the WebGL backend, in order. -/
inductive GLCall where
  | clear : GLCall
  | useProgram : GLCall
  | bindPositionBuffer : GLCall
  | enablePositionAttrib : GLCall
  | bindNormalBuffer : GLCall
  | enableNormalAttrib : GLCall
  | uniformModelView (m : Mat4) : GLCall
  | uniformProjection (m : Mat4) : GLCall
  | uniformNormalMatrix (m : Mat4) : GLCall
  | uniformLightIntensity (v : ℝ) : GLCall
  | uniformLightPosition (v : Vec3) : GLCall
  | drawLineLoop (first count : ℕ) : GLCall
  | drawTriangles (first count : ℕ) : GLCall
  | requestAnimationFrame : GLCall

/-- The mutable globals of webgl.js that the render step reads or writes. -/
structure SceneState where
  (radius theta phi : ℝ)
  (isAnimating isWireframe autoRotate : Bool)
  (rotationAngle lightIntensity : ℝ)
  (currentSubdivisionLevel : ℕ)
  (geo : Geo)
  (modelViewMatrix normalMatrix rotationMatrix : Mat4)

/-- The draw calls of one frame (webgl.js lines 370-378): per-triangle line
loops in wireframe mode, one triangle-list call otherwise. -/
noncomputable def drawCalls (s : SceneState) : List GLCall :=
  if s.isWireframe then
    (List.range (s.geo.vertices.length / 9)).map
      (fun i => GLCall.drawLineLoop (i * 3) 3)
  else
    [GLCall.drawTriangles 0 (s.geo.vertices.length / 3)]

/-- The base view matrix of a frame: the `modelViewMatrix` recomputed by
`updateCameraPosition` at the top of `render`. -/
noncomputable def baseViewOf (s : SceneState) : Mat4 :=
  (updateCameraPosition s.radius s.theta s.phi s.normalMatrix).1

/-- The `finalModelViewMatrix` of a frame: base view composed with the
Y-rotation by the (already incremented) rotation angle when auto-rotation is
on, the base view unchanged otherwise. -/
noncomputable def frameFinalView (s : SceneState) : Mat4 :=
  if s.autoRotate then
    mat4multiply (baseViewOf s)
      (mat4rotateY mat4create (s.rotationAngle + 0.01))
  else baseViewOf s

/-- `function render()` from webgl.js as one frame step: returns the new
global state together with the ordered trace of backend calls.  When
`isAnimating` is false the function returns immediately (no calls, no state
change). -/
noncomputable def render (projection : Mat4) (s : SceneState) :
    SceneState × List GLCall :=
  if s.isAnimating = false then (s, [])
  else
    let cam := updateCameraPosition s.radius s.theta s.phi s.normalMatrix
    let finalMV := frameFinalView s
    let rotationAngle2 :=
      if s.autoRotate then s.rotationAngle + 0.01 else s.rotationAngle
    let rotationMatrix2 :=
      if s.autoRotate then mat4rotateY mat4create rotationAngle2
      else s.rotationMatrix
    let nmFinal := mat4transpose ((mat4invert finalMV).getD cam.2)
    ({ s with
        rotationAngle := rotationAngle2
        rotationMatrix := rotationMatrix2
        modelViewMatrix := cam.1
        normalMatrix := nmFinal },
     [GLCall.clear, GLCall.useProgram, GLCall.bindPositionBuffer,
      GLCall.enablePositionAttrib, GLCall.bindNormalBuffer,
      GLCall.enableNormalAttrib, GLCall.uniformModelView finalMV,
      GLCall.uniformProjection projection, GLCall.uniformNormalMatrix nmFinal,
      GLCall.uniformLightIntensity s.lightIntensity,
      GLCall.uniformLightPosition lightPosition] ++ drawCalls s ++
      [GLCall.requestAnimationFrame])

/-- Default triangle used when indexing triangle lists. -/
noncomputable def defaultTri : Tri := (⟨0, 0, 0⟩, ⟨0, 0, 0⟩, ⟨0, 0, 0⟩)

/-- A vertex lies on the unit sphere within the floating tolerance 1e-5 of
the specification. -/
noncomputable def onUnitSphere (v : Vec3) : Prop :=
  |Real.sqrt (nrm2 v) - 1| < 1e-5

/-- Squared magnitude within 1e-9 of 1: true of the 12 seed vertices (whose
coordinates are 18-digit decimal truncations of the exact golden-ratio
values) and exactly true of every re-normalized midpoint. -/
noncomputable def near1 (v : Vec3) : Prop :=
  1 - 1e-9 ≤ nrm2 v ∧ nrm2 v ≤ 1 + 1e-9

/-- Invariant carried through the subdivision recursion: all three vertices
near the unit sphere, pairwise positive dot products (the triangle spans a
spherical cap of a single octant-sized region, so no midpoint can vanish),
and positive determinant (consistent outward winding). -/
noncomputable def goodTri (t : Tri) : Prop :=
  near1 t.1 ∧ near1 t.2.1 ∧ near1 t.2.2 ∧
    0 < dot t.1 t.2.1 ∧ 0 < dot t.2.1 t.2.2 ∧ 0 < dot t.1 t.2.2 ∧
    0 < det t.1 t.2.1 t.2.2

theorem subdivideTriangle_eq (depth : ℕ) :
    ∀ (v1 v2 v3 : Vec3) (g : Geo),
      subdivideTriangle v1 v2 v3 depth g =
        { vertices := g.vertices ++ (leafTris v1 v2 v3 depth).flatMap triVerts
          normals := g.normals ++ (leafTris v1 v2 v3 depth).flatMap triNorms } := by
  induction depth with
  | zero =>
      intro v1 v2 v3 g
      simp [subdivideTriangle, leafTris, triVerts, triNorms]
  | succ d ih =>
      intro v1 v2 v3 g
      simp only [subdivideTriangle, leafTris, ih, List.flatMap_append,
        List.append_assoc]

theorem generateSphereLoop_eq (verts : List ℝ) (lvl : ℕ) :
    ∀ (idx : List ℕ) (g : Geo),
      generateSphereLoop verts lvl idx g =
        { vertices := g.vertices ++
            (collectTris verts idx).flatMap
              (fun t => (leafTris t.1 t.2.1 t.2.2 lvl).flatMap triVerts)
          normals := g.normals ++
            (collectTris verts idx).flatMap
              (fun t => (leafTris t.1 t.2.1 t.2.2 lvl).flatMap triNorms) }
  | i1 :: i2 :: i3 :: rest, g => by
      rw [generateSphereLoop, collectTris, subdivideTriangle_eq,
        generateSphereLoop_eq verts lvl rest]
      simp [List.append_assoc]
  | [], g => by simp [generateSphereLoop, collectTris]
  | [i1], g => by simp [generateSphereLoop, collectTris]
  | [i1, i2], g => by simp [generateSphereLoop, collectTris]

/-- One `generateSphere` pass produces exactly the flattening of
`sphereLeafTris`. -/
theorem generateSphere_eq (level : ℕ) (g : Geo) :
    generateSphere level g =
      { vertices := (sphereLeafTris level).flatMap triVerts
        normals := (sphereLeafTris level).flatMap triNorms } := by
  rw [generateSphere, generateSphereLoop_eq]
  simp [sphereLeafTris, seedTriangles, List.flatMap_assoc]

theorem length_leafTris (d : ℕ) :
    ∀ v1 v2 v3 : Vec3, (leafTris v1 v2 v3 d).length = 4 ^ d := by
  induction d with
  | zero => intro v1 v2 v3; simp [leafTris]
  | succ d ih =>
      intro v1 v2 v3
      simp only [leafTris, List.length_append, ih]
      ring

theorem length_seedTriangles : seedTriangles.length = 20 := by
  simp [seedTriangles, generateIcosahedron, collectTris]

theorem sum_map_constant (l : List Tri) (c : ℕ) :
    (List.map (fun _ => c) l).sum = l.length * c := by
  induction l with
  | nil => simp
  | cons t rest ih => simp [ih]; ring

theorem length_sphereLeafTris (level : ℕ) :
    (sphereLeafTris level).length = 20 * 4 ^ level := by
  rw [sphereLeafTris, List.length_flatMap]
  have h : List.map (List.length ∘ fun t : Tri => leafTris t.1 t.2.1 t.2.2 level)
      seedTriangles = List.map (fun _ => 4 ^ level) seedTriangles := by
    refine List.map_congr_left ?_
    intro t _
    simp [Function.comp, length_leafTris]
  rw [h, sum_map_constant, length_seedTriangles]

theorem length_flatMap_triVerts (l : List Tri) :
    (l.flatMap triVerts).length = 9 * l.length := by
  rw [List.length_flatMap]
  induction l with
  | nil => simp
  | cons t rest ih => simp [triVerts, ih]; ring

theorem length_flatMap_triNorms (l : List Tri) :
    (l.flatMap triNorms).length = 9 * l.length := by
  rw [List.length_flatMap]
  induction l with
  | nil => simp
  | cons t rest ih => simp [triNorms, ih]; ring

theorem nrm2_nonneg (v : Vec3) : 0 ≤ nrm2 v := by
  unfold nrm2
  nlinarith [mul_self_nonneg v.x, mul_self_nonneg v.y, mul_self_nonneg v.z]

theorem dot_self (v : Vec3) : dot v v = nrm2 v := rfl

theorem dot_comm (a b : Vec3) : dot a b = dot b a := by
  simp only [dot]; ring

theorem normalize_def (v : Vec3) :
    normalize v =
      ⟨v.x / Real.sqrt (nrm2 v), v.y / Real.sqrt (nrm2 v),
        v.z / Real.sqrt (nrm2 v)⟩ := by
  simp [normalize, nrm2]

theorem dot_normalize_normalize (u v : Vec3) :
    dot (normalize u) (normalize v) =
      dot u v / (Real.sqrt (nrm2 u) * Real.sqrt (nrm2 v)) := by
  simp only [normalize_def, dot]; ring

theorem dot_left_normalize (u v : Vec3) :
    dot u (normalize v) = dot u v / Real.sqrt (nrm2 v) := by
  simp only [normalize_def, dot]; ring

theorem nrm2_normalize (v : Vec3) (h : 0 < nrm2 v) : nrm2 (normalize v) = 1 := by
  have hq : nrm2 (normalize v) =
      nrm2 v / (Real.sqrt (nrm2 v) * Real.sqrt (nrm2 v)) := by
    simp only [normalize_def, nrm2]; ring
  rw [hq, Real.mul_self_sqrt (nrm2_nonneg v), div_self (ne_of_gt h)]

theorem nrm2_midpt (u v : Vec3) :
    nrm2 (midpt u v) = (nrm2 u + 2 * dot u v + nrm2 v) / 4 := by
  simp only [nrm2, midpt, dot]; ring

theorem dot_midpt_left (w u v : Vec3) :
    dot w (midpt u v) = (dot w u + dot w v) / 2 := by
  simp only [dot, midpt]; ring

theorem dot_midpt_midpt (u v w s : Vec3) :
    dot (midpt u v) (midpt w s) =
      (dot u w + dot u s + dot v w + dot v s) / 4 := by
  simp only [dot, midpt]; ring

theorem det_normalize_23 (a u v : Vec3) :
    det a (normalize u) (normalize v) =
      det a u v / (Real.sqrt (nrm2 u) * Real.sqrt (nrm2 v)) := by
  simp only [det, normalize_def]; ring

theorem det_normalize_all (u v w : Vec3) :
    det (normalize u) (normalize v) (normalize w) =
      det u v w /
        (Real.sqrt (nrm2 u) * Real.sqrt (nrm2 v) * Real.sqrt (nrm2 w)) := by
  simp only [det, normalize_def]; ring

theorem det_mid1 (a b c : Vec3) :
    det a (midpt a b) (midpt c a) = det a b c / 4 := by
  simp only [det, midpt]; ring

theorem det_mid2 (a b c : Vec3) :
    det b (midpt b c) (midpt a b) = det a b c / 4 := by
  simp only [det, midpt]; ring

theorem det_mid3 (a b c : Vec3) :
    det c (midpt c a) (midpt b c) = det a b c / 4 := by
  simp only [det, midpt]; ring

theorem det_mid4 (a b c : Vec3) :
    det (midpt a b) (midpt b c) (midpt c a) = det a b c / 4 := by
  simp only [det, midpt]; ring

theorem near1_pos (v : Vec3) (h : near1 v) : 0 < nrm2 v := by
  have h0 : (0:ℝ) < 1 - 1e-9 := by norm_num
  exact lt_of_lt_of_le h0 h.1

theorem near1_normalize (v : Vec3) (h : 0 < nrm2 v) : near1 (normalize v) := by
  rw [near1, nrm2_normalize v h]; norm_num

theorem near1_onUnitSphere (v : Vec3) (h : near1 v) : onUnitSphere v := by
  obtain ⟨h1, h2⟩ := h
  have h0 : (0:ℝ) ≤ nrm2 v := le_trans (by norm_num) h1
  rw [onUnitSphere, abs_sub_lt_iff]
  constructor <;>
    nlinarith [Real.sq_sqrt h0, Real.sqrt_nonneg (nrm2 v)]

theorem goodTri_children (a b c : Vec3) (h : goodTri (a, b, c)) :
    goodTri (a, normalize (midpt a b), normalize (midpt c a)) ∧
    goodTri (b, normalize (midpt b c), normalize (midpt a b)) ∧
    goodTri (c, normalize (midpt c a), normalize (midpt b c)) ∧
    goodTri (normalize (midpt a b), normalize (midpt b c),
      normalize (midpt c a)) := by
  obtain ⟨ha, hb, hc, hab, hbc, hac, hdet⟩ := h
  have hA : 0 < nrm2 a := near1_pos a ha
  have hB : 0 < nrm2 b := near1_pos b hb
  have hC : 0 < nrm2 c := near1_pos c hc
  have hba : 0 < dot b a := by rw [dot_comm]; exact hab
  have hcb : 0 < dot c b := by rw [dot_comm]; exact hbc
  have hca : 0 < dot c a := by rw [dot_comm]; exact hac
  have hAA : dot a a = nrm2 a := dot_self a
  have hBB : dot b b = nrm2 b := dot_self b
  have hCC : dot c c = nrm2 c := dot_self c
  have hMab : 0 < nrm2 (midpt a b) := by rw [nrm2_midpt]; linarith
  have hMbc : 0 < nrm2 (midpt b c) := by rw [nrm2_midpt]; linarith
  have hMca : 0 < nrm2 (midpt c a) := by rw [nrm2_midpt]; linarith
  have hLab : 0 < Real.sqrt (nrm2 (midpt a b)) := Real.sqrt_pos.mpr hMab
  have hLbc : 0 < Real.sqrt (nrm2 (midpt b c)) := Real.sqrt_pos.mpr hMbc
  have hLca : 0 < Real.sqrt (nrm2 (midpt c a)) := Real.sqrt_pos.mpr hMca
  refine ⟨⟨ha, near1_normalize _ hMab, near1_normalize _ hMca, ?_, ?_, ?_, ?_⟩,
    ⟨hb, near1_normalize _ hMbc, near1_normalize _ hMab, ?_, ?_, ?_, ?_⟩,
    ⟨hc, near1_normalize _ hMca, near1_normalize _ hMbc, ?_, ?_, ?_, ?_⟩,
    ⟨near1_normalize _ hMab, near1_normalize _ hMbc, near1_normalize _ hMca,
      ?_, ?_, ?_, ?_⟩⟩
  · rw [dot_left_normalize, dot_midpt_left]
    exact div_pos (div_pos (by linarith) (by norm_num)) hLab
  · rw [dot_normalize_normalize, dot_midpt_midpt]
    exact div_pos (div_pos (by linarith) (by norm_num)) (mul_pos hLab hLca)
  · rw [dot_left_normalize, dot_midpt_left]
    exact div_pos (div_pos (by linarith) (by norm_num)) hLca
  · rw [det_normalize_23, det_mid1]
    exact div_pos (div_pos hdet (by norm_num)) (mul_pos hLab hLca)
  · rw [dot_left_normalize, dot_midpt_left]
    exact div_pos (div_pos (by linarith) (by norm_num)) hLbc
  · rw [dot_normalize_normalize, dot_midpt_midpt]
    exact div_pos (div_pos (by linarith) (by norm_num)) (mul_pos hLbc hLab)
  · rw [dot_left_normalize, dot_midpt_left]
    exact div_pos (div_pos (by linarith) (by norm_num)) hLab
  · rw [det_normalize_23, det_mid2]
    exact div_pos (div_pos hdet (by norm_num)) (mul_pos hLbc hLab)
  · rw [dot_left_normalize, dot_midpt_left]
    exact div_pos (div_pos (by linarith) (by norm_num)) hLca
  · rw [dot_normalize_normalize, dot_midpt_midpt]
    exact div_pos (div_pos (by linarith) (by norm_num)) (mul_pos hLca hLbc)
  · rw [dot_left_normalize, dot_midpt_left]
    exact div_pos (div_pos (by linarith) (by norm_num)) hLbc
  · rw [det_normalize_23, det_mid3]
    exact div_pos (div_pos hdet (by norm_num)) (mul_pos hLca hLbc)
  · rw [dot_normalize_normalize, dot_midpt_midpt]
    exact div_pos (div_pos (by linarith) (by norm_num)) (mul_pos hLab hLbc)
  · rw [dot_normalize_normalize, dot_midpt_midpt]
    exact div_pos (div_pos (by linarith) (by norm_num)) (mul_pos hLbc hLca)
  · rw [dot_normalize_normalize, dot_midpt_midpt]
    exact div_pos (div_pos (by linarith) (by norm_num)) (mul_pos hLab hLca)
  · rw [det_normalize_all, det_mid4]
    exact div_pos (div_pos hdet (by norm_num))
      (mul_pos (mul_pos hLab hLbc) hLca)

theorem leafTris_good (d : ℕ) :
    ∀ (a b c : Vec3), goodTri (a, b, c) → ∀ t ∈ leafTris a b c d, goodTri t := by
  induction d with
  | zero =>
      intro a b c h t ht
      simp only [leafTris, List.mem_singleton] at ht
      rw [ht]; exact h
  | succ d ih =>
      intro a b c h t ht
      obtain ⟨h1, h2, h3, h4⟩ := goodTri_children a b c h
      simp only [leafTris, List.mem_append] at ht
      rcases ht with (((ht | ht) | ht) | ht)
      · exact ih _ _ _ h1 t ht
      · exact ih _ _ _ h2 t ht
      · exact ih _ _ _ h3 t ht
      · exact ih _ _ _ h4 t ht

theorem seedTriangles_eq :
    seedTriangles =
      [(⟨X, N, Z⟩, ⟨N, Z, X⟩, ⟨-X, N, Z⟩),
       (⟨N, Z, X⟩, ⟨-Z, X, N⟩, ⟨-X, N, Z⟩),
       (⟨N, Z, X⟩, ⟨N, Z, -X⟩, ⟨-Z, X, N⟩),
       (⟨Z, X, N⟩, ⟨N, Z, -X⟩, ⟨N, Z, X⟩),
       (⟨X, N, Z⟩, ⟨Z, X, N⟩, ⟨N, Z, X⟩),
       (⟨X, N, Z⟩, ⟨Z, -X, N⟩, ⟨Z, X, N⟩),
       (⟨Z, -X, N⟩, ⟨X, N, -Z⟩, ⟨Z, X, N⟩),
       (⟨Z, X, N⟩, ⟨X, N, -Z⟩, ⟨N, Z, -X⟩),
       (⟨X, N, -Z⟩, ⟨-X, N, -Z⟩, ⟨N, Z, -X⟩),
       (⟨X, N, -Z⟩, ⟨N, -Z, -X⟩, ⟨-X, N, -Z⟩),
       (⟨X, N, -Z⟩, ⟨Z, -X, N⟩, ⟨N, -Z, -X⟩),
       (⟨Z, -X, N⟩, ⟨N, -Z, X⟩, ⟨N, -Z, -X⟩),
       (⟨N, -Z, X⟩, ⟨-Z, -X, N⟩, ⟨N, -Z, -X⟩),
       (⟨N, -Z, X⟩, ⟨-X, N, Z⟩, ⟨-Z, -X, N⟩),
       (⟨N, -Z, X⟩, ⟨X, N, Z⟩, ⟨-X, N, Z⟩),
       (⟨Z, -X, N⟩, ⟨X, N, Z⟩, ⟨N, -Z, X⟩),
       (⟨-Z, -X, N⟩, ⟨-X, N, Z⟩, ⟨-Z, X, N⟩),
       (⟨-X, N, -Z⟩, ⟨-Z, -X, N⟩, ⟨-Z, X, N⟩),
       (⟨N, Z, -X⟩, ⟨-X, N, -Z⟩, ⟨-Z, X, N⟩),
       (⟨-Z, -X, N⟩, ⟨-X, N, -Z⟩, ⟨N, -Z, -X⟩)] := rfl

theorem seedTriangles_good : ∀ t ∈ seedTriangles, goodTri t := by
  intro t ht
  rw [seedTriangles_eq] at ht
  fin_cases ht <;>
    · simp only [goodTri, near1, nrm2, dot, det]
      norm_num [X, Z, N]

theorem sphereLeafTris_good (level : ℕ) :
    ∀ t ∈ sphereLeafTris level, goodTri t := by
  intro t ht
  simp only [sphereLeafTris, List.mem_flatMap] at ht
  obtain ⟨t0, ht0, hmem⟩ := ht
  exact leafTris_good level t0.1 t0.2.1 t0.2.2 (seedTriangles_good t0 ht0) t hmem

theorem dot_crossSub_centroid (a b c : Vec3) :
    dot (crossSub a b c) (centroid a b c) = det a b c := by
  simp only [dot, crossSub, centroid, det]; ring

theorem dot_crossSub_left (a b c : Vec3) :
    dot (crossSub a b c) a = det a b c := by
  simp only [dot, crossSub, det]; ring

theorem dot_sq_le (u w : Vec3) : dot u w ^ 2 ≤ nrm2 u * nrm2 w := by
  simp only [dot, nrm2]
  nlinarith [sq_nonneg (u.x * w.y - u.y * w.x), sq_nonneg (u.y * w.z - u.z * w.y),
    sq_nonneg (u.x * w.z - u.z * w.x)]

theorem nrm2_crossSub_pos (a b c : Vec3) (h : 0 < det a b c) :
    0 < nrm2 (crossSub a b c) := by
  rcases (nrm2_nonneg (crossSub a b c)).lt_or_eq with hlt | heq
  · exact hlt
  · exfalso
    have hd := dot_crossSub_left a b c
    have hcs := dot_sq_le (crossSub a b c) a
    nlinarith [nrm2_nonneg a]

theorem goodTri_outward (t : Tri) (h : goodTri t) :
    0 < dot (faceNormal t.1 t.2.1 t.2.2) (centroid t.1 t.2.1 t.2.2) := by
  obtain ⟨_, _, _, _, _, _, hdet⟩ := h
  have hpos := nrm2_crossSub_pos t.1 t.2.1 t.2.2 hdet
  have hcomm : dot (faceNormal t.1 t.2.1 t.2.2) (centroid t.1 t.2.1 t.2.2) =
      dot (centroid t.1 t.2.1 t.2.2) (normalize (crossSub t.1 t.2.1 t.2.2)) := by
    rw [dot_comm]; rfl
  rw [hcomm, dot_left_normalize,
    dot_comm (centroid t.1 t.2.1 t.2.2) (crossSub t.1 t.2.1 t.2.2),
    dot_crossSub_centroid]
  exact div_pos hdet (Real.sqrt_pos.mpr hpos)

theorem getD_mem_sphereLeafTris (S i : ℕ) (hi : i < 20 * 4 ^ S) :
    (sphereLeafTris S).getD i defaultTri ∈ sphereLeafTris S := by
  have hlen : i < (sphereLeafTris S).length := by
    rw [length_sphereLeafTris]; exact hi
  rw [List.getD_eq_getElem _ _ hlen]
  exact List.getElem_mem hlen

/-- C1: for every subdivision level S in 1..5, generateSphere(S) emits exactly
20·4^S leaf triangles; the flattened positions array holds 9·20·4^S floats
(3·20·4^S vertices), the normals array has the same length, and the normals
array is exactly the per-triangle face normal repeated once per vertex. -/
theorem c1_mesh_counts (S : ℕ) (g : Geo) (h1 : 1 ≤ S) (h5 : S ≤ 5) :
    (sphereLeafTris S).length = 20 * 4 ^ S ∧
    (generateSphere S g).vertices.length = 9 * (20 * 4 ^ S) ∧
    (generateSphere S g).normals.length = (generateSphere S g).vertices.length ∧
    (generateSphere S g).normals = (sphereLeafTris S).flatMap triNorms := by
  have he := generateSphere_eq S g
  refine ⟨length_sphereLeafTris S, ?_, ?_, by rw [he]⟩
  · rw [he]
    show ((sphereLeafTris S).flatMap triVerts).length = 9 * (20 * 4 ^ S)
    rw [length_flatMap_triVerts, length_sphereLeafTris]
  · rw [he]
    show ((sphereLeafTris S).flatMap triNorms).length
        = ((sphereLeafTris S).flatMap triVerts).length
    rw [length_flatMap_triNorms, length_flatMap_triVerts]

theorem c1_mesh_counts_witness :
    (1 ≤ 3 ∧ 3 ≤ 5) ∧ (sphereLeafTris 3).length = 20 * 4 ^ 3 :=
  ⟨⟨by norm_num, by norm_num⟩,
    (c1_mesh_counts 3 ⟨[], []⟩ (by norm_num) (by norm_num)).1⟩

/-- C2: every vertex position emitted into the flattened mesh by
generateSphere (the seed icosahedron vertices and every re-normalized edge
midpoint) has magnitude within 1e-5 of 1, i.e. lies on the unit sphere up to
floating tolerance. -/
theorem c2_unit_sphere (S : ℕ) (g : Geo) (i : ℕ) (hi : i < 20 * 4 ^ S) :
    (generateSphere S g).vertices = (sphereLeafTris S).flatMap triVerts ∧
    onUnitSphere ((sphereLeafTris S).getD i defaultTri).1 ∧
    onUnitSphere ((sphereLeafTris S).getD i defaultTri).2.1 ∧
    onUnitSphere ((sphereLeafTris S).getD i defaultTri).2.2 := by
  have hg := sphereLeafTris_good S _ (getD_mem_sphereLeafTris S i hi)
  obtain ⟨h1, h2, h3, _, _, _, _⟩ := hg
  exact ⟨by rw [generateSphere_eq], near1_onUnitSphere _ h1,
    near1_onUnitSphere _ h2, near1_onUnitSphere _ h3⟩

theorem c2_unit_sphere_witness :
    0 < 20 * 4 ^ 1 ∧ onUnitSphere ((sphereLeafTris 1).getD 0 defaultTri).1 :=
  ⟨by norm_num, (c2_unit_sphere 1 ⟨[], []⟩ 0 (by norm_num)).2.1⟩

/-- C3: for every leaf triangle emitted by generateSphere at any level, the
face normal normalize((v2-v1) × (v3-v1)) points away from the sphere center:
its dot product with the triangle centroid is positive. -/
theorem c3_outward_normals (S : ℕ) (g : Geo) (i : ℕ) (hi : i < 20 * 4 ^ S) :
    (generateSphere S g).normals = (sphereLeafTris S).flatMap triNorms ∧
    0 < dot
        (faceNormal ((sphereLeafTris S).getD i defaultTri).1
          ((sphereLeafTris S).getD i defaultTri).2.1
          ((sphereLeafTris S).getD i defaultTri).2.2)
        (centroid ((sphereLeafTris S).getD i defaultTri).1
          ((sphereLeafTris S).getD i defaultTri).2.1
          ((sphereLeafTris S).getD i defaultTri).2.2) := by
  have hg := sphereLeafTris_good S _ (getD_mem_sphereLeafTris S i hi)
  exact ⟨by rw [generateSphere_eq], goodTri_outward _ hg⟩

theorem c3_outward_normals_witness :
    0 < 20 * 4 ^ 0 ∧
      0 < dot
          (faceNormal ((sphereLeafTris 0).getD 0 defaultTri).1
            ((sphereLeafTris 0).getD 0 defaultTri).2.1
            ((sphereLeafTris 0).getD 0 defaultTri).2.2)
          (centroid ((sphereLeafTris 0).getD 0 defaultTri).1
            ((sphereLeafTris 0).getD 0 defaultTri).2.1
            ((sphereLeafTris 0).getD 0 defaultTri).2.2) :=
  ⟨by norm_num, (c3_outward_normals 0 ⟨[], []⟩ 0 (by norm_num)).2⟩

/-- C7: generateSphere is deterministic and fully resets its output arrays:
two invocations at the same level give identical vertex and normal
sequences, independent of the previous contents of the global arrays. -/
theorem c7_idempotent (level : ℕ) (g1 g2 : Geo) :
    generateSphere level g1 = generateSphere level g2 ∧
    generateSphere level (generateSphere level g1) = generateSphere level g1 ∧
    generateSphere level g1 =
      { vertices := (sphereLeafTris level).flatMap triVerts
        normals := (sphereLeafTris level).flatMap triNorms } :=
  ⟨rfl, rfl, generateSphere_eq level g1⟩

/-- C10: subdivideTriangle appends exactly 9·4^depth floats to each of the
two global arrays, so equal lengths divisible by 9 are preserved by every
call and hold after every generateSphere pass. -/
theorem c10_append_lengths (v1 v2 v3 : Vec3) (depth : ℕ) (g : Geo)
    (hpre : g.vertices.length = g.normals.length ∧ 9 ∣ g.vertices.length) :
    (subdivideTriangle v1 v2 v3 depth g).vertices.length
        = g.vertices.length + 9 * 4 ^ depth ∧
    (subdivideTriangle v1 v2 v3 depth g).normals.length
        = g.normals.length + 9 * 4 ^ depth ∧
    (subdivideTriangle v1 v2 v3 depth g).vertices.length
        = (subdivideTriangle v1 v2 v3 depth g).normals.length ∧
    9 ∣ (subdivideTriangle v1 v2 v3 depth g).vertices.length ∧
    ∀ (level : ℕ) (g0 : Geo),
      (generateSphere level g0).vertices.length
          = (generateSphere level g0).normals.length ∧
      9 ∣ (generateSphere level g0).vertices.length := by
  obtain ⟨heq, hdvd⟩ := hpre
  have hs := subdivideTriangle_eq depth v1 v2 v3 g
  have hv : (subdivideTriangle v1 v2 v3 depth g).vertices.length
      = g.vertices.length + 9 * 4 ^ depth := by
    rw [hs]
    show (g.vertices ++ (leafTris v1 v2 v3 depth).flatMap triVerts).length
        = g.vertices.length + 9 * 4 ^ depth
    rw [List.length_append, length_flatMap_triVerts, length_leafTris]
  have hn : (subdivideTriangle v1 v2 v3 depth g).normals.length
      = g.normals.length + 9 * 4 ^ depth := by
    rw [hs]
    show (g.normals ++ (leafTris v1 v2 v3 depth).flatMap triNorms).length
        = g.normals.length + 9 * 4 ^ depth
    rw [List.length_append, length_flatMap_triNorms, length_leafTris]
  refine ⟨hv, hn, by rw [hv, hn, heq], ?_, ?_⟩
  · rw [hv]
    exact dvd_add hdvd (dvd_mul_right 9 _)
  · intro level g0
    have hgen := generateSphere_eq level g0
    constructor
    · rw [hgen]
      show ((sphereLeafTris level).flatMap triVerts).length
          = ((sphereLeafTris level).flatMap triNorms).length
      rw [length_flatMap_triVerts, length_flatMap_triNorms]
    · rw [hgen]
      show 9 ∣ ((sphereLeafTris level).flatMap triVerts).length
      rw [length_flatMap_triVerts]
      exact dvd_mul_right 9 _

theorem mat4transpose_transpose (m : Mat4) : mat4transpose (mat4transpose m) = m :=
  rfl

set_option maxHeartbeats 3200000 in
theorem mat4invert_getD_spec (a nm : Mat4) (h : mat4det a ≠ 0) :
    mat4multiply a ((mat4invert a).getD nm) = mat4create ∧
    mat4multiply ((mat4invert a).getD nm) a = mat4create := by
  have hne := h
  simp only [mat4det] at hne
  simp only [mat4invert]
  rw [if_neg hne]
  simp only [Option.getD_some]
  constructor <;>
    · ext <;>
        · simp only [mat4multiply, mat4create]
          field_simp
          ring

theorem lookAt_pos_z (r : ℝ) (hr : 2 ≤ r) :
    mat4lookAt ⟨0, 0, r⟩ ⟨0, 0, 0⟩ ⟨0, 1, 0⟩ =
      ⟨1, 0, 0, 0, 0, 1, 0, 0, 0, 0, 1, 0, 0, 0, -r, 1⟩ := by
  have hr0 : (0:ℝ) < r := by linarith
  have hcond : ¬(|(⟨0, 0, r⟩ : Vec3).x - (⟨0, 0, 0⟩ : Vec3).x| < EPSILON ∧
      |(⟨0, 0, r⟩ : Vec3).y - (⟨0, 0, 0⟩ : Vec3).y| < EPSILON ∧
      |(⟨0, 0, r⟩ : Vec3).z - (⟨0, 0, 0⟩ : Vec3).z| < EPSILON) := by
    rintro ⟨-, -, h3⟩
    rw [show (⟨0, 0, r⟩ : Vec3).z - (⟨0, 0, 0⟩ : Vec3).z = r by norm_num,
      abs_of_pos hr0, EPSILON] at h3
    norm_num at h3
    linarith
  unfold mat4lookAt
  rw [if_neg hcond]
  norm_num
  rw [show Real.sqrt (r * r) = r from Real.sqrt_mul_self hr0.le]
  simp [mul_inv_cancel₀ hr0.ne.symm]

theorem lookAt_neg_z (r : ℝ) (hr : 2 ≤ r) :
    mat4lookAt ⟨0, 0, -r⟩ ⟨0, 0, 0⟩ ⟨0, 1, 0⟩ =
      ⟨-1, 0, 0, 0, 0, 1, 0, 0, 0, 0, -1, 0, 0, 0, -r, 1⟩ := by
  have hr0 : (0:ℝ) < r := by linarith
  have hcond : ¬(|(⟨0, 0, -r⟩ : Vec3).x - (⟨0, 0, 0⟩ : Vec3).x| < EPSILON ∧
      |(⟨0, 0, -r⟩ : Vec3).y - (⟨0, 0, 0⟩ : Vec3).y| < EPSILON ∧
      |(⟨0, 0, -r⟩ : Vec3).z - (⟨0, 0, 0⟩ : Vec3).z| < EPSILON) := by
    rintro ⟨-, -, h3⟩
    rw [show (⟨0, 0, -r⟩ : Vec3).z - (⟨0, 0, 0⟩ : Vec3).z = -r by norm_num,
      abs_neg, abs_of_pos hr0, EPSILON] at h3
    norm_num at h3
    linarith
  unfold mat4lookAt
  rw [if_neg hcond]
  norm_num
  rw [show Real.sqrt (r * r) = r from Real.sqrt_mul_self hr0.le]
  simp [mul_inv_cancel₀ hr0.ne.symm]

theorem updateCamera_phi0 (r θ : ℝ) (old : Mat4) (hr : 2 ≤ r) :
    updateCameraPosition r θ 0 old =
      (⟨1, 0, 0, 0, 0, 1, 0, 0, 0, 0, 1, 0, 0, 0, -r, 1⟩,
       ⟨1, 0, 0, 0, 0, 1, 0, 0, 0, 0, 1, r, 0, 0, 0, 1⟩) := by
  have he : eyeVec r θ 0 = ⟨0, 0, r⟩ := by simp [eyeVec]
  unfold updateCameraPosition
  rw [he, lookAt_pos_z r hr]
  simp only [mat4invert]
  norm_num
  simp [mat4transpose]

theorem updateCamera_phiPi (r θ : ℝ) (old : Mat4) (hr : 2 ≤ r) :
    updateCameraPosition r θ Real.pi old =
      (⟨-1, 0, 0, 0, 0, 1, 0, 0, 0, 0, -1, 0, 0, 0, -r, 1⟩,
       ⟨-1, 0, 0, 0, 0, 1, 0, 0, 0, 0, -1, -r, 0, 0, 0, 1⟩) := by
  have he : eyeVec r θ Real.pi = ⟨0, 0, -r⟩ := by simp [eyeVec]
  unfold updateCameraPosition
  rw [he, lookAt_neg_z r hr]
  simp only [mat4invert]
  norm_num
  simp [mat4transpose]

/-- C4 (counterexample): at phi = 0 the eye position is (0, 0, radius),
which is not collinear with the up vector (0, 1, 0) — the claimed
degeneracy premise is false for this code (the true look-at degeneracy is
at phi = pi/2, theta in (pi/2, 3pi/2)). -/
theorem c4_eye_not_collinear :
    eyeVec 5 0 0 = ⟨0, 0, 5⟩ ∧ ¬ ∃ c : ℝ, eyeVec 5 0 0 = ⟨0, c, 0⟩ := by
  have he : eyeVec 5 0 0 = ⟨0, 0, 5⟩ := by simp [eyeVec]
  refine ⟨he, ?_⟩
  rintro ⟨c, hc⟩
  rw [he] at hc
  have h5 : (5:ℝ) = 0 := congrArg Vec3.z hc
  norm_num at h5

/-- C4 (amended): at phi = 0 or phi = pi the look-at computation neither
crashes nor produces any non-finite value: for every radius in [2,10] and
every theta, the view matrix and the normal matrix are the explicit finite
closed forms below, independent of theta and of the previous normal matrix
(no fallback is involved because the eye on the z axis is not collinear
with the up vector (0,1,0), so the basis is non-degenerate and the inverse
exists). -/
theorem c4_pole_view_finite (r θ : ℝ) (old : Mat4) (h2 : 2 ≤ r)
    (h10 : r ≤ 10) :
    updateCameraPosition r θ 0 old =
      (⟨1, 0, 0, 0, 0, 1, 0, 0, 0, 0, 1, 0, 0, 0, -r, 1⟩,
       ⟨1, 0, 0, 0, 0, 1, 0, 0, 0, 0, 1, r, 0, 0, 0, 1⟩) ∧
    updateCameraPosition r θ Real.pi old =
      (⟨-1, 0, 0, 0, 0, 1, 0, 0, 0, 0, -1, 0, 0, 0, -r, 1⟩,
       ⟨-1, 0, 0, 0, 0, 1, 0, 0, 0, 0, -1, -r, 0, 0, 0, 1⟩) :=
  ⟨updateCamera_phi0 r θ old h2, updateCamera_phiPi r θ old h2⟩

theorem c4_pole_view_finite_witness :
    ((2:ℝ) ≤ 5 ∧ (5:ℝ) ≤ 10) ∧
    updateCameraPosition 5 0 0 mat4create =
      (⟨1, 0, 0, 0, 0, 1, 0, 0, 0, 0, 1, 0, 0, 0, -5, 1⟩,
       ⟨1, 0, 0, 0, 0, 1, 0, 0, 0, 0, 1, 5, 0, 0, 0, 1⟩) :=
  ⟨⟨by norm_num, by norm_num⟩,
    (c4_pole_view_finite 5 0 mat4create (by norm_num) (by norm_num)).1⟩

/-- C5: in a frame with animation running and an invertible final view:
if autoRotate, the rotation angle advances by exactly 0.01 and the drawn
matrix is baseView · R_y(angle); otherwise the drawn matrix is baseView and
the angle is unchanged; in both cases the uploaded normal matrix is the
transpose of the inverse of the final view matrix. -/
theorem c5_scene_clock (proj : Mat4) (s : SceneState)
    (hA : s.isAnimating = true)
    (hdet : mat4det (frameFinalView s) ≠ 0) :
    (s.autoRotate = true →
      (render proj s).1.rotationAngle = s.rotationAngle + 0.01 ∧
      frameFinalView s = mat4multiply (baseViewOf s)
        (mat4rotateY mat4create (s.rotationAngle + 0.01))) ∧
    (s.autoRotate = false →
      frameFinalView s = baseViewOf s ∧
      (render proj s).1.rotationAngle = s.rotationAngle) ∧
    GLCall.uniformModelView (frameFinalView s) ∈ (render proj s).2 ∧
    GLCall.uniformNormalMatrix ((render proj s).1.normalMatrix)
        ∈ (render proj s).2 ∧
    mat4multiply (frameFinalView s)
        (mat4transpose ((render proj s).1.normalMatrix)) = mat4create ∧
    mat4multiply (mat4transpose ((render proj s).1.normalMatrix))
        (frameFinalView s) = mat4create := by
  have hstate : (render proj s).1.normalMatrix =
      mat4transpose ((mat4invert (frameFinalView s)).getD
        (updateCameraPosition s.radius s.theta s.phi s.normalMatrix).2) := by
    simp [render, hA]
  have hangle : (render proj s).1.rotationAngle =
      (if s.autoRotate then s.rotationAngle + 0.01 else s.rotationAngle) := by
    simp [render, hA]
  have htr : mat4transpose ((render proj s).1.normalMatrix) =
      (mat4invert (frameFinalView s)).getD
        (updateCameraPosition s.radius s.theta s.phi s.normalMatrix).2 := by
    rw [hstate, mat4transpose_transpose]
  have hspec := mat4invert_getD_spec (frameFinalView s)
    (updateCameraPosition s.radius s.theta s.phi s.normalMatrix).2 hdet
  refine ⟨?_, ?_, ?_, ?_, ?_, ?_⟩
  · intro hrot
    refine ⟨by rw [hangle, if_pos hrot], ?_⟩
    unfold frameFinalView
    rw [if_pos hrot]
  · intro hrot
    have hne : ¬ s.autoRotate = true := by rw [hrot]; simp
    exact ⟨by unfold frameFinalView; rw [if_neg hne],
      by rw [hangle, if_neg hne]⟩
  · simp [render, hA]
  · rw [hstate]
    simp [render, hA]
  · rw [htr]; exact hspec.1
  · rw [htr]; exact hspec.2

theorem c5_scene_clock_witness :
    ((SceneState.mk 5 0 0 true false false 0 0.8 3 ⟨[], []⟩ mat4create
        mat4create mat4create).isAnimating = true ∧
      mat4det (frameFinalView (SceneState.mk 5 0 0 true false false 0 0.8 3
        ⟨[], []⟩ mat4create mat4create mat4create)) ≠ 0) ∧
    mat4multiply
      (frameFinalView (SceneState.mk 5 0 0 true false false 0 0.8 3 ⟨[], []⟩
        mat4create mat4create mat4create))
      (mat4transpose ((render mat4create
        (SceneState.mk 5 0 0 true false false 0 0.8 3 ⟨[], []⟩ mat4create
          mat4create mat4create)).1.normalMatrix)) = mat4create := by
  have hff : frameFinalView (SceneState.mk 5 0 0 true false false 0 0.8 3
      ⟨[], []⟩ mat4create mat4create mat4create) =
      ⟨1, 0, 0, 0, 0, 1, 0, 0, 0, 0, 1, 0, 0, 0, -5, 1⟩ := by
    unfold frameFinalView baseViewOf
    rw [if_neg (by simp)]
    exact congrArg Prod.fst (updateCamera_phi0 5 0 mat4create (by norm_num))
  have hdet : mat4det (frameFinalView (SceneState.mk 5 0 0 true false false 0
      0.8 3 ⟨[], []⟩ mat4create mat4create mat4create)) ≠ 0 := by
    rw [hff]
    norm_num [mat4det]
  exact ⟨⟨rfl, hdet⟩,
    (c5_scene_clock mat4create _ rfl hdet).2.2.2.2.1⟩

/-- C6: the shaded gray level is (0.2 + 0.8·max(dot(normalize N, L), 0)) ·
lightIntensity with L = normalize((2,2,2) − fragmentPosition); with
intensity 1 it is 1 for N parallel to L and 0.2 for N perpendicular to L,
and with intensity 0 it is 0 for every N. -/
theorem c6_lighting (lp vN vP : Vec3) (intensity : ℝ) :
    fragmentShaderMain lp intensity vN vP =
      (0.2 + 0.8 * max (dot (normalize vN)
        (normalize ⟨2.0 - vP.x, 2.0 - vP.y, 2.0 - vP.z⟩)) 0) * intensity ∧
    fragmentShaderMain lp 1 ⟨1, 1, 1⟩ ⟨0, 0, 0⟩ = 1 ∧
    fragmentShaderMain lp 1 ⟨1, -1, 0⟩ ⟨0, 0, 0⟩ = 0.2 ∧
    fragmentShaderMain lp 0 vN vP = 0 := by
  have hpar : dot (normalize ⟨1, 1, 1⟩) (normalize ⟨2, 2, 2⟩) = 1 := by
    rw [dot_normalize_normalize]
    rw [show nrm2 ⟨1, 1, 1⟩ = 3 by norm_num [nrm2],
      show nrm2 ⟨2, 2, 2⟩ = 12 by norm_num [nrm2],
      show dot (⟨1, 1, 1⟩ : Vec3) ⟨2, 2, 2⟩ = 6 by norm_num [dot],
      ← Real.sqrt_mul (by norm_num : (0:ℝ) ≤ 3),
      show (3:ℝ) * 12 = 36 by norm_num,
      show (36:ℝ) = 6 ^ 2 by norm_num,
      Real.sqrt_sq (by norm_num : (0:ℝ) ≤ 6)]
    norm_num
  have hperp : dot (normalize ⟨1, -1, 0⟩) (normalize ⟨2, 2, 2⟩) = 0 := by
    rw [dot_normalize_normalize,
      show dot (⟨1, -1, 0⟩ : Vec3) ⟨2, 2, 2⟩ = 0 by norm_num [dot]]
    simp
  have hv : (⟨(⟨2.0, 2.0, 2.0⟩ : Vec3).x - (⟨(0:ℝ), 0, 0⟩ : Vec3).x,
      (⟨2.0, 2.0, 2.0⟩ : Vec3).y - (⟨(0:ℝ), 0, 0⟩ : Vec3).y,
      (⟨2.0, 2.0, 2.0⟩ : Vec3).z - (⟨(0:ℝ), 0, 0⟩ : Vec3).z⟩ : Vec3) =
      ⟨2, 2, 2⟩ := by
    norm_num
  refine ⟨by simp only [fragmentShaderMain]; ring, ?_, ?_,
    by simp [fragmentShaderMain]⟩
  · simp only [fragmentShaderMain, hv, hpar]
    norm_num
  · simp only [fragmentShaderMain, hv, hperp]
    norm_num

/-- C8: one frame step leaves all core scene state unchanged except
rotationAngle: camera parameters, subdivision level, light intensity,
wireframe/autoRotate/animation flags and the mesh arrays are preserved. -/
theorem c8_frame_state (proj : Mat4) (s : SceneState) :
    (render proj s).1.radius = s.radius ∧
    (render proj s).1.theta = s.theta ∧
    (render proj s).1.phi = s.phi ∧
    (render proj s).1.currentSubdivisionLevel = s.currentSubdivisionLevel ∧
    (render proj s).1.lightIntensity = s.lightIntensity ∧
    (render proj s).1.isWireframe = s.isWireframe ∧
    (render proj s).1.autoRotate = s.autoRotate ∧
    (render proj s).1.isAnimating = s.isAnimating ∧
    (render proj s).1.geo = s.geo := by
  by_cases h : s.isAnimating = false <;> simp [render, h]

/-- C9: the fragment shader ignores the uLightPosition uniform (it
hard-codes the light position), so the shaded output is identical for any
two uploaded light positions, even though the render loop uploads
lightPosition = (2,2,2) every frame. -/
theorem c9_light_uniform_unused :
    (∀ (lp1 lp2 vN vP : Vec3) (intensity : ℝ),
      fragmentShaderMain lp1 intensity vN vP =
        fragmentShaderMain lp2 intensity vN vP) ∧
    lightPosition = ⟨2, 2, 2⟩ ∧
    ∀ (proj : Mat4) (s : SceneState), s.isAnimating = true →
      GLCall.uniformLightPosition lightPosition ∈ (render proj s).2 := by
  refine ⟨fun lp1 lp2 vN vP intensity => rfl,
    by norm_num [lightPosition, Vec3.mk.injEq], ?_⟩
  intro proj s h
  simp [render, h]

theorem c9_light_uniform_unused_witness :
    (SceneState.mk 5 0 0 true false false 0 0.8 3 ⟨[], []⟩ mat4create
        mat4create mat4create).isAnimating = true ∧
    GLCall.uniformLightPosition lightPosition ∈
      (render mat4create (SceneState.mk 5 0 0 true false false 0 0.8 3
        ⟨[], []⟩ mat4create mat4create mat4create)).2 :=
  ⟨rfl, c9_light_uniform_unused.2.2 mat4create _ rfl⟩

theorem c10_append_lengths_witness :
    ((Geo.mk [] []).vertices.length = (Geo.mk [] []).normals.length ∧
      9 ∣ (Geo.mk [] []).vertices.length) ∧
    (subdivideTriangle ⟨1, 0, 0⟩ ⟨0, 1, 0⟩ ⟨0, 0, 1⟩ 2 (Geo.mk [] [])).vertices.length
        = (Geo.mk [] []).vertices.length + 9 * 4 ^ 2 :=
  ⟨⟨rfl, by decide⟩,
    (c10_append_lengths ⟨1, 0, 0⟩ ⟨0, 1, 0⟩ ⟨0, 0, 1⟩ 2 (Geo.mk [] [])
      ⟨rfl, by decide⟩).1⟩

end WebGL
